import Mathlib

/-!
Verification of the ai-pack integration scripts and of the status-tracking
ledger (StatusLedger) specified for this repository.

Two components are modelled:

1. The `StatusLedger` of the specification (sections 3, 4.1, 6, 7).  The
   repository ships only the setup/update scripts; the ledger implementation
   itself is not among the provided source files, so its operations are
   modelled directly from the specification's words (each such definition
   carries a doc comment starting with "Modelled from the spec:").

2. The filesystem-mutating functions `update_integration`
   (.claude-update.py, lines 185-267) and `create_ai_directory`
   (.claude-setup.py, lines 142-190), embedded over an explicit
   filesystem state (a finite map from path to file contents plus a list
   of created directories).

Strings are processed through character-list helpers so that every
definition evaluates by kernel reduction on concrete inputs.
-/

namespace AiPack

/-! ## Generic association-list helpers

Python dictionaries (JSON objects) are modelled as insertion-ordered
association lists with unique keys: lookup returns the first binding,
assignment replaces the first binding in place or appends a fresh one,
exactly like `d[k] = v` on a `dict`. -/

/-- First binding for key `k`, like Python `d.get(k)`. -/
def lookupKey {α : Type} : List (String × α) → String → Option α
  | [], _ => none
  | (k1, v1) :: rest, k => if k1 = k then some v1 else lookupKey rest k

/-- Assignment `d[k] = v`: replaces the binding in place, or appends. -/
def setKey {α : Type} : List (String × α) → String → α → List (String × α)
  | [], k, v => [(k, v)]
  | (k1, v1) :: rest, k, v =>
    if k1 = k then (k, v) :: rest else (k1, v1) :: setKey rest k v

/-- Key membership, like Python `k in d`. -/
def containsKey {α : Type} (m : List (String × α)) (k : String) : Bool :=
  (lookupKey m k).isSome

/-! ## Character-list string helpers

Integer parsing and path matching are defined over `String.data` so that
they compute by kernel reduction. -/

/-- Decimal digit value of a character, if it is a digit. -/
def digitVal (c : Char) : Option Nat :=
  if c.toNat ≥ 48 ∧ c.toNat ≤ 57 then some (c.toNat - 48) else none

/-- Reads a nonempty digit string as a natural number. -/
def digitsToNat : List Char → Option Nat
  | [] => none
  | cs => go cs 0
where
  go : List Char → Nat → Option Nat
    | [], acc => some acc
    | c :: rest, acc =>
      match digitVal c with
      | some d => go rest (acc * 10 + d)
      | none => none

/-- Integer parse of a character list: optional minus sign, then digits. -/
def parseIntChars (cs : List Char) : Option Int :=
  match cs with
  | '-' :: rest => (digitsToNat rest).map (fun n => -(n : Int))
  | _ => (digitsToNat cs).map (fun n => (n : Int))

/-- Integer parse of a string (the "textual form parses as an integer" test). -/
def strToInt (s : String) : Option Int := parseIntChars s.data

/-- Whether string `a` is a prefix of string `b`. -/
def strPrefixOf (a b : String) : Bool := a.data.isPrefixOf b.data

/-- Whether string `a` is a suffix of string `b`. -/
def strSuffixOf (a b : String) : Bool := a.data.isSuffixOf b.data

/-- Length of a string in characters. -/
def strLen (s : String) : Nat := s.data.length

/-! ## StatusLedger: data model

Modelled from the spec: section 3 (data model) and section 6 (persisted
state layout).  An agent record is a JSON object whose values are null,
integers (timestamps are modelled as abstract integer instants), strings,
or the append-only array of blocker entries. -/

/-- One entry of an agent's blocker history:
the persisted object `{"blocker": string, "timestamp": instant}`. -/
structure BlockerEntry where
  blocker : String
  timestamp : Int
deriving Repr, DecidableEq

/-- A JSON-shaped field value as it occurs inside an agent record. -/
inductive JVal where
  | jnull
  | jint (n : Int)
  | jstr (s : String)
  | jblockers (xs : List BlockerEntry)
deriving Repr, DecidableEq

/-- An agent record: a JSON object mapping field names to values. -/
abbrev AgentRec := List (String × JVal)

/-- Modelled from the spec: the `LedgerState` aggregate of section 3 —
`agents` (mapping from agent identifier to record), `lastUpdate`
(nullable timestamp), `orchestratorId` (nullable identifier). -/
structure Ledger where
  agents : List (String × AgentRec)
  lastUpdate : Option Int
  orchestratorId : Option String
deriving Repr, DecidableEq

/-- Modelled from the spec: the empty default structure
`{agents: {}, lastUpdate: null, orchestratorId: null}`. -/
def emptyLedger : Ledger :=
  { agents := [], lastUpdate := none, orchestratorId := none }

/-! ## StatusLedger: operations -/

/-- Modelled from the spec: the record `register` installs — `status =
active`, `started = lastUpdate = now`, `completed = null`, `commits = 0`,
`blockers = []`, plus the supplied `role` and `task` labels. -/
def freshRecord (role task : String) (now : Int) : AgentRec :=
  [("role", .jstr role), ("task", .jstr task), ("status", .jstr "active"),
   ("started", .jint now), ("last_update", .jint now), ("completed", .jnull),
   ("commits", .jint 0), ("blockers", .jblockers [])]

/-- Modelled from the spec: `register(agentId, role, task, orchestratorId)`
inserts or overwrites the record for `agentId` with a fresh record and sets
the ledger-level `orchestratorId` to the supplied value (last write wins);
`lastUpdate` is refreshed.  No uniqueness check of any kind is performed. -/
def register (l : Ledger) (agentId role task orchestratorId : String)
    (now : Int) : Ledger :=
  { agents := setKey l.agents agentId (freshRecord role task now),
    lastUpdate := some now,
    orchestratorId := some orchestratorId }

/-- Modelled from the spec: values whose textual form parses as an integer
are normalized to integer type before assignment, uniformly for every
field. -/
def normalizeValue (s : String) : JVal :=
  match strToInt s with
  | some n => .jint n
  | none => .jstr s

/-- Assigns each supplied field in order onto the record (the generic
merge of `update`). -/
def applyFieldAssignments (r : AgentRec) (fu : List (String × JVal)) : AgentRec :=
  fu.foldl (fun acc kv => setKey acc kv.1 kv.2) r

/-- Core of `update`: merges already-normalized values onto the record of
a known agent and refreshes both the record-level and the ledger-level
`last_update`; unknown agents are left untouched. -/
def updateFields (l : Ledger) (agentId : String) (fu : List (String × JVal))
    (now : Int) : Ledger :=
  match lookupKey l.agents agentId with
  | none => l
  | some r =>
    { agents := setKey l.agents agentId
        (setKey (applyFieldAssignments r fu) "last_update" (.jint now)),
      lastUpdate := some now,
      orchestratorId := l.orchestratorId }

/-- Modelled from the spec: `update(agentId, fieldUpdates)` applies an
arbitrary mapping of field name to textual value onto the existing record
(normalizing integer-looking values), refreshing `lastUpdate`.  If
`agentId` is unknown this is a no-op that emits a warning; the returned
flag records whether the warning was printed. -/
def update (l : Ledger) (agentId : String) (fieldUpdates : List (String × String))
    (now : Int) : Ledger × Bool :=
  if containsKey l.agents agentId then
    (updateFields l agentId
      (fieldUpdates.map (fun kv => (kv.1, normalizeValue kv.2))) now, false)
  else
    (l, true)

/-- Modelled from the spec: `markComplete(agentId)` is equivalent to
`update(agentId, {status: "completed", completed: now})`; no prior-state
validation is performed. -/
def markComplete (l : Ledger) (agentId : String) (now : Int) : Ledger :=
  updateFields l agentId
    [("status", .jstr "completed"), ("completed", .jint now)] now

/-- The blocker history stored in a record (empty when the field is
absent or not an array). -/
def blockersList (r : AgentRec) : List BlockerEntry :=
  match lookupKey r "blockers" with
  | some (.jblockers xs) => xs
  | _ => []

/-- Modelled from the spec: `markBlocked(agentId, blockerReason)` sets
`status = "blocked"`, appends `{blocker: blockerReason, timestamp: now}`
to `blockers` and refreshes `lastUpdate`; silent no-op if `agentId` is
unknown. -/
def markBlocked (l : Ledger) (agentId reason : String) (now : Int) : Ledger :=
  match lookupKey l.agents agentId with
  | none => l
  | some r =>
    { agents := setKey l.agents agentId
        (setKey
          (setKey (setKey r "status" (.jstr "blocked"))
            "blockers" (.jblockers (blockersList r ++ [⟨reason, now⟩])))
          "last_update" (.jint now)),
      lastUpdate := some now,
      orchestratorId := l.orchestratorId }

/-- Status field of a record as a string (empty when absent). -/
def statusOf (r : AgentRec) : String :=
  match lookupKey r "status" with
  | some (.jstr s) => s
  | _ => ""

/-- Record of an agent in a ledger (empty record when unknown). -/
def recOf (l : Ledger) (agentId : String) : AgentRec :=
  (lookupKey l.agents agentId).getD []

/-- Blocker history of an agent in a ledger (empty when unknown). -/
def blockersOf (l : Ledger) (agentId : String) : List BlockerEntry :=
  blockersList (recOf l agentId)

/-! ## StatusLedger: report generation -/

/-- Modelled from the spec: the per-agent projection of `generateReport`
— identifier, role, task, status, commit count and full blocker list. -/
structure AgentView where
  agentId : String
  role : JVal
  task : JVal
  status : JVal
  commits : JVal
  blockers : List BlockerEntry
deriving Repr, DecidableEq

/-- Projection of one ledger entry into its report view. -/
def viewOf (p : String × AgentRec) : AgentView :=
  { agentId := p.1,
    role := (lookupKey p.2 "role").getD .jnull,
    task := (lookupKey p.2 "task").getD .jnull,
    status := (lookupKey p.2 "status").getD .jnull,
    commits := (lookupKey p.2 "commits").getD .jnull,
    blockers := blockersList p.2 }

/-- Modelled from the spec: the aggregation result of `generateReport` —
total count, counts partitioned by status, a one-line summary and the
per-agent projections. -/
structure Report where
  total_count : Nat
  completed_count : Nat
  active_count : Nat
  blocked_count : Nat
  summary : String
  agents : List AgentView
deriving Repr, DecidableEq

/-- Modelled from the spec: `generateReport()` — pure read-side
aggregation.  With zero agents it returns the distinguished
"no agents registered" shape with all counts at zero and an empty agent
list; otherwise counts are partitioned by status and the summary has the
form `"<completed>/<total> completed, <active> active, <blocked> blocked"`. -/
def generateReport (l : Ledger) : Report :=
  if l.agents.isEmpty then
    { total_count := 0, completed_count := 0, active_count := 0,
      blocked_count := 0, summary := "No agents registered", agents := [] }
  else
    { total_count := l.agents.length,
      completed_count := l.agents.countP (fun p => statusOf p.2 == "completed"),
      active_count := l.agents.countP (fun p => statusOf p.2 == "active"),
      blocked_count := l.agents.countP (fun p => statusOf p.2 == "blocked"),
      summary := toString (l.agents.countP (fun p => statusOf p.2 == "completed"))
        ++ "/" ++ toString l.agents.length ++ " completed, "
        ++ toString (l.agents.countP (fun p => statusOf p.2 == "active"))
        ++ " active, "
        ++ toString (l.agents.countP (fun p => statusOf p.2 == "blocked"))
        ++ " blocked",
      agents := l.agents.map viewOf }

/-! ## StatusLedger: persistence -/

/-- A parsed JSON document, the target of deserializing the persisted
status file. -/
inductive JsonV where
  | null
  | num (n : Int)
  | str (s : String)
  | arr (xs : List JsonV)
  | obj (kvs : List (String × JsonV))

/-- Serialization of one field value into JSON. -/
def saveVal : JVal → JsonV
  | .jnull => .null
  | .jint n => .num n
  | .jstr s => .str s
  | .jblockers xs =>
    .arr (xs.map (fun b => .obj [("blocker", .str b.blocker),
                                 ("timestamp", .num b.timestamp)]))

/-- Serialization of an agent record into a JSON object. -/
def saveRec (r : AgentRec) : JsonV :=
  .obj (r.map (fun kv => (kv.1, saveVal kv.2)))

/-- Serialization of a nullable timestamp. -/
def optNum : Option Int → JsonV
  | none => .null
  | some n => .num n

/-- Serialization of a nullable identifier. -/
def optStr : Option String → JsonV
  | none => .null
  | some s => .str s

/-- Modelled from the spec: serialization of the whole ledger into the
persisted layout of section 6 (`agents`, `last_update`,
`orchestrator_id`). -/
def save (l : Ledger) : JsonV :=
  .obj [("agents", .obj (l.agents.map (fun p => (p.1, saveRec p.2)))),
        ("last_update", optNum l.lastUpdate),
        ("orchestrator_id", optStr l.orchestratorId)]

/-- Parses one persisted blocker entry. -/
def parseBlocker : JsonV → Option BlockerEntry
  | .obj [("blocker", .str s), ("timestamp", .num t)] => some ⟨s, t⟩
  | _ => none

/-- Parses a persisted blocker array. -/
def parseBlockers : List JsonV → Option (List BlockerEntry)
  | [] => some []
  | v :: rest =>
    match parseBlocker v, parseBlockers rest with
    | some b, some bs => some (b :: bs)
    | _, _ => none

/-- Parses one persisted field value. -/
def parseVal : JsonV → Option JVal
  | .null => some .jnull
  | .num n => some (.jint n)
  | .str s => some (.jstr s)
  | .arr xs => (parseBlockers xs).map .jblockers
  | .obj _ => none

/-- Parses the fields of a persisted agent record. -/
def parseRecFields : List (String × JsonV) → Option AgentRec
  | [] => some []
  | (k, v) :: rest =>
    match parseVal v, parseRecFields rest with
    | some w, some ws => some ((k, w) :: ws)
    | _, _ => none

/-- Parses the persisted agents mapping. -/
def parseAgents : List (String × JsonV) → Option (List (String × AgentRec))
  | [] => some []
  | (k, .obj fields) :: rest =>
    match parseRecFields fields, parseAgents rest with
    | some r, some rs => some ((k, r) :: rs)
    | _, _ => none
  | _ => none

/-- Parses a persisted nullable timestamp. -/
def parseOptNum : JsonV → Option (Option Int)
  | .null => some none
  | .num n => some (some n)
  | _ => none

/-- Parses a persisted nullable identifier. -/
def parseOptStr : JsonV → Option (Option String)
  | .null => some none
  | .str s => some (some s)
  | _ => none

/-- Modelled from the spec: deserialization of the persisted layout of
section 6; any document that does not have the documented shape is a
parse failure. -/
def parseLedger : JsonV → Option Ledger
  | .obj [("agents", .obj ags), ("last_update", lu), ("orchestrator_id", oid)] =>
    match parseAgents ags, parseOptNum lu, parseOptStr oid with
    | some a, some u, some o =>
      some { agents := a, lastUpdate := u, orchestratorId := o }
    | _, _, _ => none
  | _ => none

/-- The observable state of the persisted status file: absent, present
but not valid JSON text, or present and parsed into a document. -/
inductive FileState where
  | missing
  | corrupt (raw : String)
  | wellFormed (doc : JsonV)

/-- Modelled from the spec: `load()` reads the persisted file if present
and well-formed; on missing file or any parse failure it silently falls
back to the empty default structure and never signals an error. -/
def load : FileState → Ledger
  | .missing => emptyLedger
  | .corrupt _ => emptyLedger
  | .wellFormed doc => (parseLedger doc).getD emptyLedger

/-! ## StatusLedger: operation sequences -/

/-- One invocation of a ledger operation (the CLI surface of section 6). -/
inductive LedgerOp where
  | opRegister (agentId role task orchestratorId : String) (now : Int)
  | opUpdate (agentId : String) (fieldUpdates : List (String × String)) (now : Int)
  | opComplete (agentId : String) (now : Int)
  | opBlocked (agentId reason : String) (now : Int)

/-- Applies one operation to the in-memory ledger. -/
def applyOp (l : Ledger) : LedgerOp → Ledger
  | .opRegister a r t o n => register l a r t o n
  | .opUpdate a fu n => (update l a fu n).1
  | .opComplete a n => markComplete l a n
  | .opBlocked a r n => markBlocked l a r n

/-- Applies a sequence of operations in order. -/
def applyOps (l : Ledger) (ops : List LedgerOp) : Ledger :=
  ops.foldl applyOp l

/-- Operations that neither re-register agent `a` nor assign its
`blockers` field through the generic update path. -/
def blockersSafe (a : String) : LedgerOp → Bool
  | .opRegister b _ _ _ _ => b != a
  | .opUpdate b fu _ => b != a || fu.all (fun kv => kv.1 != "blockers")
  | _ => true

/-! ## Filesystem model for the integration scripts

The two script functions below mutate the project tree through
`shutil.copy2`, `Path.write_text` and `Path.mkdir`.  The filesystem is
modelled as a finite map from path to file contents plus the list of
created directories; permission bits (the `chmod` calls) are filesystem
metadata outside the file-content state and are not modelled. -/

/-- A filesystem: file contents by path, plus existing directories. -/
structure FS where
  files : List (String × String)
  dirs : List String
deriving Repr, DecidableEq

/-- Contents of the file at `p`, if present. -/
def readFile (fs : FS) (p : String) : Option String := lookupKey fs.files p

/-- Creates or overwrites the file at `p` (`Path.write_text`,
`shutil.copy2` on the destination side). -/
def writeFile (fs : FS) (p c : String) : FS :=
  { fs with files := setKey fs.files p c }

/-- `shutil.copy2(src, dst)`: overwrites `dst` with the contents of
`src` (no-op in the model when the source is absent, a case in which the
script would abort before writing anything). -/
def copyFile (fs : FS) (src dst : String) : FS :=
  match readFile fs src with
  | some c => writeFile fs dst c
  | none => fs

/-- `Path.mkdir(exist_ok=True)`: records the directory, tolerating its
prior existence. -/
def mkdirP (fs : FS) (d : String) : FS :=
  if d ∈ fs.dirs then fs else { fs with dirs := fs.dirs ++ [d] }

/-- Creates a list of directories in order. -/
def mkdirs (fs : FS) (ds : List String) : FS := ds.foldl mkdirP fs

/-- `path.exists()` for a directory. -/
def dirExists (fs : FS) (d : String) : Bool := decide (d ∈ fs.dirs)

/-- `dir.glob('*<suffix>')`: the paths of files lying directly in `dir`
whose name ends with `suffix`. -/
def isDirectChildOf (dir p : String) : Bool :=
  strPrefixOf (dir ++ "/") p && !((p.data.drop (strLen dir + 1)).contains '/')

/-- Paths returned by a non-recursive glob for `*<suffix>` in `dir`. -/
def globSuffix (fs : FS) (dir suffix : String) : List String :=
  (fs.files.map Prod.fst).filter
    (fun p => isDirectChildOf dir p && strSuffixOf suffix p)

/-- File name of `p` relative to its directory `dir`. -/
def relName (dir p : String) : String := String.mk (p.data.drop (strLen dir + 1))

/-! ## .claude-setup.py: create_ai_directory (lines 142-190) -/

/-- Contents written to `.ai/.gitignore` by `create_ai_directory`. -/
def gitignoreText : String := "# AI-Pack workspace\n# Task packets are tracked\n"

/-- Contents written to `.ai/repo-overrides.md` by `create_ai_directory`. -/
def repoOverridesText : String :=
  "# Project-Specific Overrides\n\nThis file contains project-specific rules that override or extend the ai-pack framework defaults.\n\n## Language/Technology\n\n- Language: [e.g., Python, C#, JavaScript]\n- Framework: [e.g., Django, .NET, React]\n\n## Coding Standards\n\n[Any project-specific coding standards that differ from .ai-pack/quality/]\n\n## Testing Requirements\n\n[Any project-specific testing requirements]\n\n## Build/Deploy\n\n[Project-specific build or deployment considerations]\n\n## Notes\n\n[Any other project-specific guidance for AI assistants]\n"

/-- `Path.write_text` guarded by `if not path.exists()`. -/
def writeIfMissing (fs : FS) (p c : String) : FS :=
  if (readFile fs p).isSome then fs else writeFile fs p c

/-- Embeds `create_ai_directory` of .claude-setup.py: creates `.ai/` and
`.ai/tasks/` (tolerating existing directories), writes `.ai/.gitignore`
and `.ai/repo-overrides.md` only when absent, and returns `True`. -/
def create_ai_directory (fs : FS) : FS × Bool :=
  let fs1 := mkdirP (mkdirP fs ".ai") ".ai/tasks"
  let fs2 := writeIfMissing fs1 ".ai/.gitignore" gitignoreText
  let fs3 := writeIfMissing fs2 ".ai/repo-overrides.md" repoOverridesText
  (fs3, true)

/-! ## .claude-update.py: update_integration (lines 185-267) -/

/-- Root of the framework template tree. -/
def templateRoot : String := ".ai-pack/templates/.claude"

/-- The `customizations` dictionary produced by `detect_customizations`;
only the `custom_settings` flag influences which files
`update_integration` writes (the lists are only reported). -/
structure Customizations where
  commands : List String
  skills : List String
  rules : List String
  hooks : List String
  custom_settings : Bool
deriving Repr, DecidableEq

/-- Copies of the template slash commands:
`src_commands.glob('*.md')` each copied into `.claude/commands/ai-pack/`. -/
def commandActs (fs : FS) : List (String × String) :=
  (globSuffix fs (templateRoot ++ "/commands/ai-pack") ".md").map
    (fun p => (p, ".claude/commands/ai-pack/"
      ++ relName (templateRoot ++ "/commands/ai-pack") p))

/-- The fixed framework skills whose template directory exists. -/
def existingSkills (fs : FS) : List String :=
  ["orchestrator", "engineer"].filter
    (fun s => dirExists fs (templateRoot ++ "/skills/" ++ s))

/-- Copies of the `SKILL.md` of each existing framework skill. -/
def skillActs (fs : FS) : List (String × String) :=
  (existingSkills fs).map
    (fun s => (templateRoot ++ "/skills/" ++ (s ++ "/SKILL.md"),
               ".claude/skills/" ++ (s ++ "/SKILL.md")))

/-- Copies of the template rules: `src_rules.glob('*.md')`. -/
def ruleActs (fs : FS) : List (String × String) :=
  (globSuffix fs (templateRoot ++ "/rules") ".md").map
    (fun p => (p, ".claude/rules/" ++ relName (templateRoot ++ "/rules") p))

/-- Copies of the template hooks: `src_hooks.glob('*.py')`. -/
def hookActs (fs : FS) : List (String × String) :=
  (globSuffix fs (templateRoot ++ "/hooks") ".py").map
    (fun p => (p, ".claude/hooks/" ++ relName (templateRoot ++ "/hooks") p))

/-- All copies preceding the settings handling: commands, skills, rules,
hooks, and the hooks README. -/
def preActs (fs : FS) : List (String × String) :=
  commandActs fs ++ skillActs fs ++ ruleActs fs ++ hookActs fs
    ++ [(templateRoot ++ "/hooks/README.md", ".claude/hooks/README.md")]

/-- The settings copy: with custom settings detected and a backup
present, the template goes to `.claude/settings.json.new`; otherwise it
overwrites `.claude/settings.json`. -/
def settingsAct (c : Customizations) (backup : Option String) : String × String :=
  if c.custom_settings && backup.isSome then
    (templateRoot ++ "/settings.json", ".claude/settings.json.new")
  else
    (templateRoot ++ "/settings.json", ".claude/settings.json")

/-- Every copy performed by `update_integration`, in program order.  The
source directories all lie under `.ai-pack/` while every destination lies
under `.claude/`, so computing the globs against the initial state is
equivalent to the script's interleaved evaluation. -/
def copyActions (fs : FS) (c : Customizations) (backup : Option String) :
    List (String × String) :=
  preActs fs ++ [settingsAct c backup,
                 (templateRoot ++ "/README.md", ".claude/README.md")]

/-- The destination paths `update_integration` writes. -/
def writtenPaths (fs : FS) (c : Customizations) (backup : Option String) :
    List String :=
  (copyActions fs c backup).map Prod.snd

/-- Embeds `update_integration` of .claude-update.py: creates the target
directories, copies every framework template file over the corresponding
`.claude/` path, and routes the settings template to
`.claude/settings.json.new` when custom settings were detected with a
backup present. -/
def update_integration (fs : FS) (c : Customizations) (backup : Option String) :
    FS :=
  let fs0 := mkdirs fs ([".claude", ".claude/commands", ".claude/commands/ai-pack",
                         ".claude/skills", ".claude/rules", ".claude/hooks"]
                        ++ (existingSkills fs).map (fun s => ".claude/skills/" ++ s))
  (copyActions fs c backup).foldl (fun f a => copyFile f a.1 a.2) fs0

/-- The record produced by `markComplete` from a prior record `r`. -/
def completedRec (r : AgentRec) (t : Int) : AgentRec :=
  setKey (applyFieldAssignments r
    [("status", .jstr "completed"), ("completed", .jint t)]) "last_update" (.jint t)

/-- The four target directories into which `update_integration` copies
template files. -/
def claudePrefixes : List String :=
  [".claude/commands/ai-pack/", ".claude/skills/", ".claude/rules/", ".claude/hooks/"]

/-- A sample project tree used to witness the `update_integration`
claims: a populated framework template, one custom command and a
customized `settings.json` under `.claude/`. -/
def sampleTree : FS :=
  { files := [(templateRoot ++ "/commands/ai-pack/help.md", "H"),
              (templateRoot ++ "/rules/gates.md", "G"),
              (templateRoot ++ "/hooks/check-task-packet.py", "P"),
              (templateRoot ++ "/hooks/README.md", "HR"),
              (templateRoot ++ "/README.md", "R"),
              (templateRoot ++ "/settings.json", "S"),
              (templateRoot ++ "/skills/orchestrator/SKILL.md", "SK"),
              (".claude/settings.json", "MINE"),
              (".claude/commands/ai-pack/custom.md", "CUSTOM")],
    dirs := [templateRoot ++ "/skills/orchestrator"] }

/-- The customizations detected on `sampleTree`. -/
def sampleCustomizations : Customizations :=
  { commands := ["custom.md"], skills := [], rules := [], hooks := [],
    custom_settings := true }

/-- A sample tree with a pre-existing `.ai/.gitignore`, used to witness
the `create_ai_directory` claim. -/
def sampleAiTree : FS :=
  { files := [(".ai/.gitignore", "OLD")], dirs := [".ai"] }

/-! ## Association-list lemmas -/

theorem lookupKey_setKey_self {α : Type} (m : List (String × α)) (k : String) (v : α) :
    lookupKey (setKey m k v) k = some v := by
  induction m with
  | nil => simp [setKey, lookupKey]
  | cons p rest ih =>
    by_cases h : p.1 = k
    · simp [setKey, h, lookupKey]
    · simp [setKey, h, lookupKey, ih]

theorem lookupKey_setKey_ne {α : Type} (m : List (String × α)) (k q : String) (v : α)
    (h : q ≠ k) : lookupKey (setKey m k v) q = lookupKey m q := by
  have hk : ¬(k = q) := fun hh => h hh.symm
  induction m with
  | nil => simp [setKey, lookupKey, hk]
  | cons p rest ih =>
    obtain ⟨k1, v1⟩ := p
    by_cases hp : k1 = k
    · subst hp
      simp [setKey, lookupKey, hk]
    · simp [setKey, hp, lookupKey, ih]

theorem isSome_lookupKey_setKey {α : Type} (m : List (String × α)) (k q : String) (v : α)
    (h : (lookupKey m q).isSome = true) :
    (lookupKey (setKey m k v) q).isSome = true := by
  by_cases hq : q = k
  · subst hq; simp [lookupKey_setKey_self]
  · rwa [lookupKey_setKey_ne m k q v hq]

theorem setKey_setKey {α : Type} (m : List (String × α)) (k : String) (v w : α) :
    setKey (setKey m k v) k w = setKey m k w := by
  induction m with
  | nil => simp [setKey]
  | cons p rest ih =>
    by_cases h : p.1 = k
    · simp [setKey, h]
    · simp [setKey, h, ih]

theorem length_setKey {α : Type} (m : List (String × α)) (k : String) (v : α) :
    (setKey m k v).length =
      if containsKey m k then m.length else m.length + 1 := by
  induction m with
  | nil => simp [setKey, containsKey, lookupKey]
  | cons p rest ih =>
    obtain ⟨k1, v1⟩ := p
    by_cases h : k1 = k
    · simp [setKey, h, containsKey, lookupKey]
    · simp only [setKey, if_neg h, containsKey, lookupKey, List.length_cons]
      simp only [containsKey] at ih
      rw [ih]
      by_cases hc : (lookupKey rest k).isSome = true
      · simp [hc]
      · simp [hc]

theorem setKey_ne_nil {α : Type} (m : List (String × α)) (k : String) (v : α) :
    setKey m k v ≠ [] := by
  cases m with
  | nil => simp [setKey]
  | cons p rest =>
    by_cases h : p.1 = k <;> simp [setKey, h]

theorem mem_setKey_self {α : Type} (m : List (String × α)) (k : String) (v : α) :
    (k, v) ∈ setKey m k v := by
  induction m with
  | nil => simp [setKey]
  | cons p rest ih =>
    by_cases h : p.1 = k
    · simp [setKey, h]
    · simp [setKey, h]
      right
      exact ih

theorem countP_setKey_congr {α : Type} (m : List (String × α)) (k : String) (v w : α)
    (p : String × α → Bool) (h : p (k, v) = p (k, w)) :
    (setKey m k v).countP p = (setKey m k w).countP p := by
  induction m with
  | nil => simp [setKey, List.countP_cons, h]
  | cons q rest ih =>
    by_cases hq : q.1 = k
    · simp [setKey, hq, List.countP_cons, h]
    · simp [setKey, hq, List.countP_cons, ih]

theorem containsKey_setKey_self {α : Type} (m : List (String × α)) (k : String) (v : α) :
    containsKey (setKey m k v) k = true := by
  simp [containsKey, lookupKey_setKey_self]

theorem isEmpty_setKey {α : Type} (m : List (String × α)) (k : String) (v : α) :
    (setKey m k v).isEmpty = false := by
  cases h : setKey m k v with
  | nil => exact absurd h (setKey_ne_nil m k v)
  | cons p rest => rfl

/-! ## Persistence round-trip lemmas -/

theorem parseBlockers_save (xs : List BlockerEntry) :
    parseBlockers (xs.map (fun b => .obj [("blocker", .str b.blocker),
                                          ("timestamp", .num b.timestamp)]))
      = some xs := by
  induction xs with
  | nil => rfl
  | cons b rest ih => simp [parseBlockers, parseBlocker, ih]

theorem parseVal_saveVal (v : JVal) : parseVal (saveVal v) = some v := by
  cases v with
  | jnull => rfl
  | jint n => rfl
  | jstr s => rfl
  | jblockers xs => simp [saveVal, parseVal, parseBlockers_save]

theorem parseRecFields_save (r : AgentRec) :
    parseRecFields (r.map (fun kv => (kv.1, saveVal kv.2))) = some r := by
  induction r with
  | nil => rfl
  | cons kv rest ih => simp [parseRecFields, parseVal_saveVal, ih]

theorem parseAgents_save (ags : List (String × AgentRec)) :
    parseAgents (ags.map (fun p => (p.1, saveRec p.2))) = some ags := by
  induction ags with
  | nil => rfl
  | cons p rest ih =>
    obtain ⟨k, r⟩ := p
    simp only [saveRec] at ih ⊢
    simp [parseAgents, parseRecFields_save, ih]

theorem parseLedger_save (l : Ledger) : parseLedger (save l) = some l := by
  obtain ⟨ags, lu, oid⟩ := l
  cases lu <;> cases oid <;>
    simp [save, parseLedger, parseAgents_save, optNum, optStr,
          parseOptNum, parseOptStr]

/-! ## Blocker-history lemmas -/

theorem blockersList_setKey_ne (r : AgentRec) (k : String) (v : JVal)
    (h : k ≠ "blockers") : blockersList (setKey r k v) = blockersList r := by
  simp [blockersList, lookupKey_setKey_ne r k "blockers" v (Ne.symm h)]

theorem lookupKey_applyFieldAssignments_ne (r : AgentRec) (fu : List (String × JVal))
    (q : String) (h : ∀ kv ∈ fu, kv.1 ≠ q) :
    lookupKey (applyFieldAssignments r fu) q = lookupKey r q := by
  induction fu generalizing r with
  | nil => rfl
  | cons kv rest ih =>
    have h1 : ∀ x ∈ rest, x.1 ≠ q := fun x hx => h x (List.mem_cons_of_mem kv hx)
    have h2 : q ≠ kv.1 := fun hh => (h kv (List.mem_cons_self kv rest)) hh.symm
    show lookupKey (applyFieldAssignments (setKey r kv.1 kv.2) rest) q = lookupKey r q
    rw [ih (setKey r kv.1 kv.2) h1, lookupKey_setKey_ne r kv.1 q kv.2 h2]

theorem blockersOf_markBlocked_self (l : Ledger) (a reason : String) (t : Int)
    (h : containsKey l.agents a = true) :
    blockersOf (markBlocked l a reason t) a = blockersOf l a ++ [⟨reason, t⟩] := by
  rw [containsKey, Option.isSome_iff_exists] at h
  obtain ⟨r, hr⟩ := h
  simp only [markBlocked, hr, blockersOf, recOf, lookupKey_setKey_self,
    Option.getD_some]
  rw [blockersList_setKey_ne _ "last_update" _ (by decide)]
  simp [blockersList, lookupKey_setKey_self]

theorem containsKey_markBlocked_self (l : Ledger) (a reason : String) (t : Int)
    (h : containsKey l.agents a = true) :
    containsKey (markBlocked l a reason t).agents a = true := by
  rw [containsKey, Option.isSome_iff_exists] at h
  obtain ⟨r, hr⟩ := h
  simp [markBlocked, hr, containsKey, lookupKey_setKey_self]

theorem blockersOf_applyOp_grows (l : Ledger) (a : String) (op : LedgerOp)
    (h : blockersSafe a op = true) :
    blockersOf l a <+: blockersOf (applyOp l op) a := by
  cases op with
  | opRegister b ro ta o n =>
    simp only [blockersSafe, bne_iff_ne, ne_eq] at h
    simp only [applyOp, register, blockersOf, recOf]
    rw [lookupKey_setKey_ne _ b a _ (Ne.symm h)]
  | opUpdate b fu n =>
    simp only [applyOp, update]
    by_cases hc : containsKey l.agents b = true
    · rw [containsKey, Option.isSome_iff_exists] at hc
      obtain ⟨r, hr⟩ := hc
      have hcc : containsKey l.agents b = true := by
        simp [containsKey, hr]
      simp only [hcc, if_true, updateFields, hr]
      by_cases hb : b = a
      · subst hb
        simp only [blockersSafe, bne_self_eq_false, Bool.false_or,
          List.all_eq_true, bne_iff_ne, ne_eq] at h
        simp only [blockersOf, recOf, lookupKey_setKey_self, Option.getD_some]
        rw [blockersList_setKey_ne _ "last_update" _ (by decide)]
        have hfu : ∀ kv ∈ fu.map (fun kv => (kv.1, normalizeValue kv.2)),
            kv.1 ≠ "blockers" := by
          intro kv hkv
          simp only [List.mem_map] at hkv
          obtain ⟨x, hx, hxe⟩ := hkv
          rw [← hxe]
          exact h x hx
        have := lookupKey_applyFieldAssignments_ne r
          (fu.map (fun kv => (kv.1, normalizeValue kv.2))) "blockers" hfu
        simp only [blockersList, this, hr, blockersOf, recOf, Option.getD_some]
        exact List.prefix_refl _
      · simp only [blockersOf, recOf]
        rw [lookupKey_setKey_ne _ b a _ (fun hh => hb hh.symm)]
    · simp only [Bool.not_eq_true] at hc
      simp [hc]
  | opComplete b n =>
    simp only [applyOp, markComplete, updateFields]
    cases hr : lookupKey l.agents b with
    | none => exact List.prefix_refl _
    | some r =>
      by_cases hb : b = a
      · subst hb
        simp only [blockersOf, recOf, lookupKey_setKey_self, Option.getD_some]
        rw [blockersList_setKey_ne _ "last_update" _ (by decide)]
        have hkeys : ∀ kv ∈ [("status", JVal.jstr "completed"),
            ("completed", JVal.jint n)], kv.1 ≠ "blockers" := by
          intro kv hkv
          rcases List.mem_cons.mp hkv with h1 | h1
          · rw [h1]
            exact (by decide : ("status" : String) ≠ "blockers")
          · rw [List.mem_singleton.mp h1]
            exact (by decide : ("completed" : String) ≠ "blockers")
        have := lookupKey_applyFieldAssignments_ne r
          [("status", JVal.jstr "completed"), ("completed", JVal.jint n)]
          "blockers" hkeys
        simp only [blockersList, this, hr, Option.getD_some]
        exact List.prefix_refl _
      · simp only [blockersOf, recOf]
        rw [lookupKey_setKey_ne _ b a _ (fun hh => hb hh.symm)]
  | opBlocked b reason n =>
    simp only [applyOp, markBlocked]
    cases hr : lookupKey l.agents b with
    | none => exact List.prefix_refl _
    | some r =>
      by_cases hb : b = a
      · subst hb
        simp only [blockersOf, recOf, lookupKey_setKey_self, Option.getD_some]
        rw [blockersList_setKey_ne _ "last_update" _ (by decide)]
        simp only [blockersList, lookupKey_setKey_self, hr, Option.getD_some]
        exact ⟨[⟨reason, n⟩], rfl⟩
      · simp only [blockersOf, recOf]
        rw [lookupKey_setKey_ne _ b a _ (fun hh => hb hh.symm)]

theorem blockersOf_applyOps_grows (l : Ledger) (a : String) (ops : List LedgerOp)
    (h : ∀ op ∈ ops, blockersSafe a op = true) :
    blockersOf l a <+: blockersOf (applyOps l ops) a := by
  induction ops generalizing l with
  | nil => exact List.prefix_refl _
  | cons op rest ih =>
    exact (blockersOf_applyOp_grows l a op (h op (List.mem_cons_self op rest))).trans
      (ih (applyOp l op) (fun x hx => h x (List.mem_cons_of_mem op hx)))

theorem blockersOf_applyOps_blocked (l : Ledger) (a : String)
    (rs : List (String × Int)) (h : containsKey l.agents a = true) :
    blockersOf (applyOps l (rs.map (fun p => LedgerOp.opBlocked a p.1 p.2))) a
      = blockersOf l a ++ rs.map (fun p => ⟨p.1, p.2⟩) := by
  induction rs generalizing l with
  | nil => simp [applyOps]
  | cons p rest ih =>
    show blockersOf (applyOps (applyOp l (LedgerOp.opBlocked a p.1 p.2))
      (rest.map (fun p => LedgerOp.opBlocked a p.1 p.2))) a = _
    have happ : applyOp l (LedgerOp.opBlocked a p.1 p.2) = markBlocked l a p.1 p.2 := rfl
    rw [happ, ih (markBlocked l a p.1 p.2) (containsKey_markBlocked_self l a p.1 p.2 h),
      blockersOf_markBlocked_self l a p.1 p.2 h]
    simp

/-! ## markComplete lemmas -/

theorem markComplete_eq (l : Ledger) (a : String) (t : Int) (r : AgentRec)
    (hr : lookupKey l.agents a = some r) :
    markComplete l a t =
      { agents := setKey l.agents a (completedRec r t),
        lastUpdate := some t, orchestratorId := l.orchestratorId } := by
  simp [markComplete, updateFields, hr, completedRec]

theorem statusOf_completedRec (r : AgentRec) (t : Int) :
    statusOf (completedRec r t) = "completed" := by
  show statusOf (setKey (setKey (setKey r "status" (.jstr "completed"))
    "completed" (.jint t)) "last_update" (.jint t)) = "completed"
  simp only [statusOf]
  rw [lookupKey_setKey_ne _ "last_update" "status" _ (by decide),
      lookupKey_setKey_ne _ "completed" "status" _ (by decide),
      lookupKey_setKey_self]

theorem lookupCompleted_completedRec (r : AgentRec) (t : Int) :
    lookupKey (completedRec r t) "completed" = some (.jint t) := by
  show lookupKey (setKey (setKey (setKey r "status" (.jstr "completed"))
    "completed" (.jint t)) "last_update" (.jint t)) "completed" = some (.jint t)
  rw [lookupKey_setKey_ne _ "last_update" "completed" _ (by decide),
      lookupKey_setKey_self]

theorem generateReport_counts (L : Ledger) (h : L.agents.isEmpty = false) :
    (generateReport L).completed_count
        = L.agents.countP (fun p => statusOf p.2 == "completed")
  ∧ (generateReport L).active_count
        = L.agents.countP (fun p => statusOf p.2 == "active")
  ∧ (generateReport L).blocked_count
        = L.agents.countP (fun p => statusOf p.2 == "blocked")
  ∧ (generateReport L).total_count = L.agents.length := by
  simp [generateReport, h]

/-! ## Claim theorems: the status ledger (C1 - C8) -/

/-- Claim C1: for every persisted status-file state, `load` never fails:
a missing file, corrupt file text, and a document that fails to parse all
yield the empty default structure
(agents empty, lastUpdate null, orchestratorId null), so a corrupted
status file never aborts the calling process. -/
theorem c1_load_fail_open :
    load FileState.missing = emptyLedger
  ∧ (∀ raw : String, load (FileState.corrupt raw) = emptyLedger)
  ∧ (∀ doc : JsonV, parseLedger doc = none →
      load (FileState.wellFormed doc) = emptyLedger)
  ∧ emptyLedger = { agents := [], lastUpdate := none, orchestratorId := none } := by
  refine ⟨rfl, fun raw => rfl, fun doc h => ?_, rfl⟩
  simp [load, h]

/-- Witness for C1 at a concrete unparseable document. -/
theorem c1_load_fail_open_witness :
    parseLedger (JsonV.num 7) = none
  ∧ load (FileState.wellFormed (JsonV.num 7)) = emptyLedger :=
  ⟨rfl, c1_load_fail_open.2.2.1 (JsonV.num 7) rfl⟩

/-- Claim C2: `register` (also on an already-registered identifier)
leaves a record with status active, started = last_update = now,
completed null, commits 0, empty blockers; it sets the ledger-level
orchestratorId to the supplied value and refreshes lastUpdate.  It is
total — re-registration overwrites in place, so no uniqueness error can
arise and the agent count does not grow on re-registration. -/
theorem c2_register_overwrites (l : Ledger) (agentId role task orch : String)
    (now : Int) :
    lookupKey (register l agentId role task orch now).agents agentId
      = some (freshRecord role task now)
  ∧ statusOf (freshRecord role task now) = "active"
  ∧ lookupKey (freshRecord role task now) "started" = some (.jint now)
  ∧ lookupKey (freshRecord role task now) "last_update" = some (.jint now)
  ∧ lookupKey (freshRecord role task now) "completed" = some .jnull
  ∧ lookupKey (freshRecord role task now) "commits" = some (.jint 0)
  ∧ blockersList (freshRecord role task now) = []
  ∧ (register l agentId role task orch now).orchestratorId = some orch
  ∧ (register l agentId role task orch now).lastUpdate = some now
  ∧ (register l agentId role task orch now).agents.length
      = (if containsKey l.agents agentId then l.agents.length
         else l.agents.length + 1) := by
  refine ⟨lookupKey_setKey_self l.agents agentId _, rfl, rfl, rfl, rfl, rfl,
    rfl, rfl, rfl, ?_⟩
  exact length_setKey l.agents agentId _

/-- Claim C3: `update` on an unknown agent is a warning-emitting no-op —
the ledger is unchanged, the agent count is preserved, no record is
created, and the warning flag is the only observable effect. -/
theorem c3_update_unknown_noop (l : Ledger) (agentId : String)
    (fu : List (String × String)) (now : Int)
    (h : lookupKey l.agents agentId = none) :
    (update l agentId fu now).1 = l
  ∧ (update l agentId fu now).2 = true
  ∧ (update l agentId fu now).1.agents.length = l.agents.length
  ∧ lookupKey (update l agentId fu now).1.agents agentId = none := by
  have hc : containsKey l.agents agentId = false := by simp [containsKey, h]
  simp [update, hc, h]

/-- Witness for C3 on a concrete ledger and an unknown identifier. -/
theorem c3_update_unknown_noop_witness :
    (update (register emptyLedger "eng-1" "Engineer" "implement parser"
        "orch-7" 0) "ghost" [("commits", "3")] 1).1
      = register emptyLedger "eng-1" "Engineer" "implement parser" "orch-7" 0
  ∧ (update (register emptyLedger "eng-1" "Engineer" "implement parser"
        "orch-7" 0) "ghost" [("commits", "3")] 1).2 = true :=
  ⟨(c3_update_unknown_noop
      (register emptyLedger "eng-1" "Engineer" "implement parser" "orch-7" 0)
      "ghost" [("commits", "3")] 1 (by decide)).1,
   (c3_update_unknown_noop
      (register emptyLedger "eng-1" "Engineer" "implement parser" "orch-7" 0)
      "ghost" [("commits", "3")] 1 (by decide)).2.1⟩

/-- Claim C4 counterexample: the blockers list does not only grow under
every sequence of ledger operations.  After registering agent "a" and
recording one blocker, the history has length one; re-registering "a"
resets it to empty (the overwrite semantics of register), and a generic
`update` assigning the "blockers" field likewise discards the entry. -/
theorem c4_counterexample :
    blockersOf (applyOps emptyLedger
      [.opRegister "a" "r" "t" "o" 0, .opBlocked "a" "waiting" 1]) "a"
      = [⟨"waiting", 1⟩]
  ∧ blockersOf (applyOps emptyLedger
      [.opRegister "a" "r" "t" "o" 0, .opBlocked "a" "waiting" 1,
       .opRegister "a" "r" "t" "o" 2]) "a" = []
  ∧ blockersOf (applyOps emptyLedger
      [.opRegister "a" "r" "t" "o" 0, .opBlocked "a" "waiting" 1,
       .opUpdate "a" [("blockers", "x")] 2]) "a" = [] := by
  decide

/-- Claim C4 as amended: across every sequence of operations that neither
re-registers the agent nor assigns its "blockers" field through the
generic update path, the blocker history only grows (the old history is a
prefix of the new); each `markBlocked` call on a registered agent appends
exactly one entry with the given reason and timestamp; and N such calls
append N entries in call order. -/
theorem c4_blockers_growth :
    (∀ (l : Ledger) (a : String) (ops : List LedgerOp),
      (∀ op ∈ ops, blockersSafe a op = true) →
      blockersOf l a <+: blockersOf (applyOps l ops) a)
  ∧ (∀ (l : Ledger) (a reason : String) (t : Int),
      containsKey l.agents a = true →
      blockersOf (markBlocked l a reason t) a = blockersOf l a ++ [⟨reason, t⟩])
  ∧ (∀ (l : Ledger) (a : String) (rs : List (String × Int)),
      containsKey l.agents a = true →
      blockersOf (applyOps l (rs.map (fun p => LedgerOp.opBlocked a p.1 p.2))) a
        = blockersOf l a ++ rs.map (fun p => ⟨p.1, p.2⟩)) :=
  ⟨blockersOf_applyOps_grows, blockersOf_markBlocked_self,
   blockersOf_applyOps_blocked⟩

/-- Witness for the amended C4: two blocker calls on a registered agent
produce exactly the two entries in call order. -/
theorem c4_blockers_growth_witness :
    blockersOf (applyOps (register emptyLedger "a" "r" "t" "o" 0)
        ([("x", 1), ("y", 2)].map (fun p => LedgerOp.opBlocked "a" p.1 p.2))) "a"
      = blockersOf (register emptyLedger "a" "r" "t" "o" 0) "a"
        ++ ([("x", 1), ("y", 2)] : List (String × Int)).map (fun p => ⟨p.1, p.2⟩) :=
  c4_blockers_growth.2.2 (register emptyLedger "a" "r" "t" "o" 0) "a"
    [("x", 1), ("y", 2)] (by decide)

/-- Claim C5: on a registered agent, calling `markComplete` twice yields
the same report bucket counts as calling it once; after the first call
the agent is counted in the completed bucket (status "completed", at
least one completed agent) with a non-null completed timestamp. -/
theorem c5_markComplete_idempotent (l : Ledger) (a : String) (t1 t2 : Int)
    (h : containsKey l.agents a = true) :
    (generateReport (markComplete (markComplete l a t1) a t2)).completed_count
      = (generateReport (markComplete l a t1)).completed_count
  ∧ (generateReport (markComplete (markComplete l a t1) a t2)).active_count
      = (generateReport (markComplete l a t1)).active_count
  ∧ (generateReport (markComplete (markComplete l a t1) a t2)).blocked_count
      = (generateReport (markComplete l a t1)).blocked_count
  ∧ (generateReport (markComplete (markComplete l a t1) a t2)).total_count
      = (generateReport (markComplete l a t1)).total_count
  ∧ 1 ≤ (generateReport (markComplete l a t1)).completed_count
  ∧ statusOf (recOf (markComplete l a t1) a) = "completed"
  ∧ lookupKey (recOf (markComplete l a t1) a) "completed" = some (.jint t1) := by
  have hx := h
  rw [containsKey, Option.isSome_iff_exists] at hx
  obtain ⟨r, hr⟩ := hx
  have h1 := markComplete_eq l a t1 r hr
  have hAg1 : (markComplete l a t1).agents = setKey l.agents a (completedRec r t1) := by
    rw [h1]
  have hr1 : lookupKey (markComplete l a t1).agents a = some (completedRec r t1) := by
    rw [hAg1]
    exact lookupKey_setKey_self l.agents a _
  have h2 := markComplete_eq (markComplete l a t1) a t2 (completedRec r t1) hr1
  have hAg2 : (markComplete (markComplete l a t1) a t2).agents
      = setKey l.agents a (completedRec (completedRec r t1) t2) := by
    rw [h2]
    show setKey (markComplete l a t1).agents a _ = _
    rw [hAg1]
    exact setKey_setKey l.agents a _ _
  have hne1 : ((markComplete l a t1).agents).isEmpty = false := by
    rw [hAg1]
    exact isEmpty_setKey l.agents a _
  have hne2 : ((markComplete (markComplete l a t1) a t2).agents).isEmpty = false := by
    rw [hAg2]
    exact isEmpty_setKey l.agents a _
  obtain ⟨hc2, ha2, hb2, ht2⟩ := generateReport_counts _ hne2
  obtain ⟨hc1, ha1, hb1, htl1⟩ := generateReport_counts _ hne1
  refine ⟨?_, ?_, ?_, ?_, ?_, ?_, ?_⟩
  · rw [hc2, hc1, hAg2, hAg1]
    exact countP_setKey_congr l.agents a _ _ _
      (by simp only [statusOf_completedRec])
  · rw [ha2, ha1, hAg2, hAg1]
    exact countP_setKey_congr l.agents a _ _ _
      (by simp only [statusOf_completedRec])
  · rw [hb2, hb1, hAg2, hAg1]
    exact countP_setKey_congr l.agents a _ _ _
      (by simp only [statusOf_completedRec])
  · rw [ht2, htl1, hAg2, hAg1, length_setKey, length_setKey]
  · rw [hc1, hAg1]
    exact List.countP_pos_iff.mpr ⟨(a, completedRec r t1),
      mem_setKey_self l.agents a _, by simp [statusOf_completedRec]⟩
  · simp [recOf, hr1, statusOf_completedRec]
  · simp [recOf, hr1, lookupCompleted_completedRec]

/-- Witness for C5 on a concrete one-agent ledger. -/
theorem c5_markComplete_idempotent_witness :
    (generateReport (markComplete (markComplete
        (register emptyLedger "eng-1" "Engineer" "implement parser" "orch-7" 0)
        "eng-1" 5) "eng-1" 6)).completed_count
      = (generateReport (markComplete
        (register emptyLedger "eng-1" "Engineer" "implement parser" "orch-7" 0)
        "eng-1" 5)).completed_count
  ∧ 1 ≤ (generateReport (markComplete
        (register emptyLedger "eng-1" "Engineer" "implement parser" "orch-7" 0)
        "eng-1" 5)).completed_count :=
  ⟨(c5_markComplete_idempotent
      (register emptyLedger "eng-1" "Engineer" "implement parser" "orch-7" 0)
      "eng-1" 5 6 (by decide)).1,
   (c5_markComplete_idempotent
      (register emptyLedger "eng-1" "Engineer" "implement parser" "orch-7" 0)
      "eng-1" 5 6 (by decide)).2.2.2.2.1⟩

/-- Claim C6: textual values that parse as integers are normalized to
integer type before assignment, uniformly for every field (for the
single refreshed field `last_update` the assigned integer is then
overwritten by the integer timestamp `now`); in particular
`update("eng-1", {"commits": "3"})` on a freshly registered agent stores
the integer 3 and leaves role, task and status unchanged. -/
theorem c6_integer_normalization :
    (∀ (s : String) (n : Int), strToInt s = some n → normalizeValue s = .jint n)
  ∧ (∀ (l : Ledger) (a k s : String) (n t : Int),
      containsKey l.agents a = true → strToInt s = some n →
      lookupKey (recOf ((update l a [(k, s)] t).1) a) k
        = some (if k = "last_update" then JVal.jint t else JVal.jint n))
  ∧ (lookupKey (recOf ((update (register emptyLedger "eng-1" "Engineer"
        "implement parser" "orch-7" 0) "eng-1" [("commits", "3")] 1).1)
        "eng-1") "commits" = some (.jint 3)
     ∧ lookupKey (recOf ((update (register emptyLedger "eng-1" "Engineer"
        "implement parser" "orch-7" 0) "eng-1" [("commits", "3")] 1).1)
        "eng-1") "role" = some (.jstr "Engineer")
     ∧ lookupKey (recOf ((update (register emptyLedger "eng-1" "Engineer"
        "implement parser" "orch-7" 0) "eng-1" [("commits", "3")] 1).1)
        "eng-1") "task" = some (.jstr "implement parser")
     ∧ statusOf (recOf ((update (register emptyLedger "eng-1" "Engineer"
        "implement parser" "orch-7" 0) "eng-1" [("commits", "3")] 1).1)
        "eng-1") = "active") := by
  refine ⟨fun s n h => by simp [normalizeValue, h], ?_, by decide, by decide,
    by decide, by decide⟩
  intro l a k s n t hc hs
  have hx := hc
  rw [containsKey, Option.isSome_iff_exists] at hx
  obtain ⟨r, hr⟩ := hx
  simp only [update, hc, if_true, updateFields, hr, List.map_cons, List.map_nil,
    recOf, lookupKey_setKey_self, Option.getD_some]
  have happ : applyFieldAssignments r [(k, normalizeValue s)]
      = setKey r k (normalizeValue s) := rfl
  rw [happ]
  by_cases hk : k = "last_update"
  · subst hk
    rw [lookupKey_setKey_self, if_pos rfl]
  · rw [lookupKey_setKey_ne _ "last_update" k _ hk, lookupKey_setKey_self,
      if_neg hk]
    have hn : normalizeValue s = .jint n := by simp [normalizeValue, hs]
    rw [hn]

/-- Witness for C6 applying the general normalization statement at a
concrete registered agent and string-valued commit count. -/
theorem c6_integer_normalization_witness :
    lookupKey (recOf ((update (register emptyLedger "eng-1" "Engineer"
        "implement parser" "orch-7" 0) "eng-1" [("commits", "7")] 2).1)
        "eng-1") "commits"
      = some (if ("commits" : String) = "last_update" then JVal.jint 2
              else JVal.jint 7) :=
  c6_integer_normalization.2.1
    (register emptyLedger "eng-1" "Engineer" "implement parser" "orch-7" 0)
    "eng-1" "commits" "7" 7 2 (by decide) (by decide)

/-- Claim C7: `generateReport` on a ledger with zero agents returns all
four counts at zero, an empty per-agent list, and the distinguished
"no agents registered" summary, which differs from the general summary
format instantiated at zero. -/
theorem c7_zero_agent_report (lu : Option Int) (oid : Option String) :
    generateReport { agents := [], lastUpdate := lu, orchestratorId := oid }
      = { total_count := 0, completed_count := 0, active_count := 0,
          blocked_count := 0, summary := "No agents registered", agents := [] }
  ∧ "No agents registered" ≠ "0/0 completed, 0 active, 0 blocked" :=
  ⟨rfl, by decide⟩

/-- Claim C8: saving any ledger state and loading it back reproduces the
same logical state — serialization followed by deserialization is the
identity on the ledger. -/
theorem c8_save_load_roundtrip (l : Ledger) :
    load (FileState.wellFormed (save l)) = l := by
  simp [load, parseLedger_save]

/-! ## Filesystem lemmas -/

theorem readFile_writeFile_self (fs : FS) (p c : String) :
    readFile (writeFile fs p c) p = some c :=
  lookupKey_setKey_self fs.files p c

theorem readFile_writeFile_ne (fs : FS) (p c q : String) (h : q ≠ p) :
    readFile (writeFile fs p c) q = readFile fs q :=
  lookupKey_setKey_ne fs.files p q c h

theorem readFile_copyFile_ne (fs : FS) (src dst q : String) (h : q ≠ dst) :
    readFile (copyFile fs src dst) q = readFile fs q := by
  unfold copyFile
  cases readFile fs src with
  | none => rfl
  | some c => exact readFile_writeFile_ne fs dst c q h

theorem readFile_copyFile_src (fs : FS) (src dst c : String)
    (h : readFile fs src = some c) :
    readFile (copyFile fs src dst) dst = some c := by
  unfold copyFile
  rw [h]
  exact readFile_writeFile_self fs dst c

theorem isSome_readFile_copyFile (fs : FS) (src dst q : String)
    (h : (readFile fs q).isSome = true) :
    (readFile (copyFile fs src dst) q).isSome = true := by
  unfold copyFile
  cases readFile fs src with
  | none => exact h
  | some c => exact isSome_lookupKey_setKey fs.files dst q c h

theorem files_mkdirP (fs : FS) (d : String) : (mkdirP fs d).files = fs.files := by
  unfold mkdirP
  split <;> rfl

theorem dirs_mkdirP_self (fs : FS) (d : String) : d ∈ (mkdirP fs d).dirs := by
  unfold mkdirP
  split
  · assumption
  · simp

theorem dirs_mkdirP_mono (fs : FS) (d e : String) (h : e ∈ fs.dirs) :
    e ∈ (mkdirP fs d).dirs := by
  unfold mkdirP
  split
  · exact h
  · simp [h]

theorem files_mkdirs (fs : FS) (ds : List String) : (mkdirs fs ds).files = fs.files := by
  induction ds generalizing fs with
  | nil => rfl
  | cons d rest ih =>
    show (mkdirs (mkdirP fs d) rest).files = fs.files
    rw [ih (mkdirP fs d), files_mkdirP]

theorem readFile_mkdirs (fs : FS) (ds : List String) (p : String) :
    readFile (mkdirs fs ds) p = readFile fs p := by
  unfold readFile
  rw [files_mkdirs]

theorem readFile_foldl_copy_not_mem (acts : List (String × String)) (fs : FS)
    (p : String) (h : p ∉ acts.map Prod.snd) :
    readFile (acts.foldl (fun f a => copyFile f a.1 a.2) fs) p = readFile fs p := by
  induction acts generalizing fs with
  | nil => rfl
  | cons a rest ih =>
    have h1 : p ∉ rest.map Prod.snd := fun hm => h (List.mem_cons_of_mem a.2 hm)
    have h2 : p ≠ a.2 := fun he => h (by rw [List.map_cons, he]; exact List.mem_cons_self a.2 _)
    show readFile (rest.foldl (fun f a => copyFile f a.1 a.2) (copyFile fs a.1 a.2)) p
      = readFile fs p
    rw [ih (copyFile fs a.1 a.2) h1, readFile_copyFile_ne fs a.1 a.2 p h2]

theorem isSome_foldl_copy (acts : List (String × String)) (fs : FS) (p : String)
    (h : (readFile fs p).isSome = true) :
    (readFile (acts.foldl (fun f a => copyFile f a.1 a.2) fs) p).isSome = true := by
  induction acts generalizing fs with
  | nil => exact h
  | cons a rest ih =>
    exact ih (copyFile fs a.1 a.2) (isSome_readFile_copyFile fs a.1 a.2 p h)

theorem readFile_writeIfMissing_ne (fs : FS) (p c q : String) (h : q ≠ p) :
    readFile (writeIfMissing fs p c) q = readFile fs q := by
  unfold writeIfMissing
  split
  · rfl
  · exact readFile_writeFile_ne fs p c q h

theorem readFile_writeIfMissing_present (fs : FS) (p c content : String)
    (h : readFile fs p = some content) :
    readFile (writeIfMissing fs p c) p = some content := by
  unfold writeIfMissing
  rw [h]
  exact h

theorem dirs_writeIfMissing (fs : FS) (p c : String) :
    (writeIfMissing fs p c).dirs = fs.dirs := by
  unfold writeIfMissing
  split <;> rfl

theorem readFile_writeIfMissing_absent (fs : FS) (p c : String)
    (h : readFile fs p = none) :
    readFile (writeIfMissing fs p c) p = some c := by
  unfold writeIfMissing
  rw [h]
  exact readFile_writeFile_self fs p c

theorem append_ne_of_take_ne (a t u : String)
    (h : u.data.take a.data.length ≠ a.data) : a ++ t ≠ u := by
  intro he
  apply h
  have hd : a.data ++ t.data = u.data := by
    rw [← he]
    exact String.data_append a t
  rw [← hd]
  exact List.take_left a.data t.data

theorem preActs_dst_shape (fs : FS) :
    ∀ d ∈ (preActs fs).map Prod.snd, ∃ a ∈ claudePrefixes, ∃ t, d = a ++ t := by
  intro d hd
  rw [preActs] at hd
  simp only [List.map_append, List.mem_append] at hd
  rcases hd with (((hc | hs) | hr) | hh) | hread
  · rw [commandActs, List.map_map] at hc
    obtain ⟨p, hp, he⟩ := List.mem_map.mp hc
    exact ⟨".claude/commands/ai-pack/", by simp [claudePrefixes],
      relName (templateRoot ++ "/commands/ai-pack") p, he.symm⟩
  · rw [skillActs, List.map_map] at hs
    obtain ⟨s, hp, he⟩ := List.mem_map.mp hs
    exact ⟨".claude/skills/", by simp [claudePrefixes], s ++ "/SKILL.md", he.symm⟩
  · rw [ruleActs, List.map_map] at hr
    obtain ⟨p, hp, he⟩ := List.mem_map.mp hr
    exact ⟨".claude/rules/", by simp [claudePrefixes],
      relName (templateRoot ++ "/rules") p, he.symm⟩
  · rw [hookActs, List.map_map] at hh
    obtain ⟨p, hp, he⟩ := List.mem_map.mp hh
    exact ⟨".claude/hooks/", by simp [claudePrefixes],
      relName (templateRoot ++ "/hooks") p, he.symm⟩
  · simp only [List.map_cons, List.map_nil, List.mem_singleton] at hread
    exact ⟨".claude/hooks/", by simp [claudePrefixes], "README.md",
      by rw [hread]; decide⟩

theorem not_mem_preActs_dst (fs : FS) (p : String)
    (h : ∀ a ∈ claudePrefixes, p.data.take a.data.length ≠ a.data) :
    p ∉ (preActs fs).map Prod.snd := by
  intro hp
  obtain ⟨a, ha, t, he⟩ := preActs_dst_shape fs p hp
  exact append_ne_of_take_ne a t p (h a ha) he.symm

theorem settings_json_not_written (fs : FS) (c : Customizations) (b : Option String)
    (h1 : c.custom_settings = true) (h2 : b.isSome = true) :
    ".claude/settings.json" ∉ writtenPaths fs c b := by
  intro hp
  simp only [writtenPaths, copyActions, List.map_append, List.mem_append,
    List.map_cons, List.map_nil, List.mem_cons, List.mem_singleton] at hp
  rcases hp with hpre | hset | hread
  · exact not_mem_preActs_dst fs ".claude/settings.json" (by decide) hpre
  · rw [settingsAct, if_pos (by simp [h1, h2])] at hset
    exact absurd hset (by decide)
  · exact absurd hread (by decide)

theorem settings_src_not_in_preActs (fs : FS) :
    (templateRoot ++ "/settings.json") ∉ (preActs fs).map Prod.snd :=
  not_mem_preActs_dst fs (templateRoot ++ "/settings.json") (by decide)

/-! ## Claim theorems: the integration scripts (C9, C10) -/

/-- Claim C9: `update_integration` writes only the destination paths
derived from the framework template (the template's commands, the
orchestrator and engineer SKILL.md files, rules, hooks, hooks/README.md,
README.md and the settings file); every other file — custom commands,
skills, rules and hooks included — keeps its exact contents, and no file
is ever deleted.  When custom settings are detected with a backup
present, `.claude/settings.json` is left untouched and the template
settings are written to `.claude/settings.json.new` instead. -/
theorem c9_update_integration_frame (fs : FS) (c : Customizations)
    (b : Option String) :
    (∀ p : String, p ∉ writtenPaths fs c b →
        readFile (update_integration fs c b) p = readFile fs p)
  ∧ (∀ p : String, (readFile fs p).isSome = true →
        (readFile (update_integration fs c b) p).isSome = true)
  ∧ (c.custom_settings = true → b.isSome = true →
        readFile (update_integration fs c b) ".claude/settings.json"
          = readFile fs ".claude/settings.json"
      ∧ (∀ content : String,
          readFile fs (templateRoot ++ "/settings.json") = some content →
          readFile (update_integration fs c b) ".claude/settings.json.new"
            = some content)) := by
  refine ⟨?frame, ?keep, fun h1 h2 => ⟨?settings, ?fresh⟩⟩
  case frame =>
    intro p hp
    unfold update_integration
    rw [readFile_foldl_copy_not_mem (copyActions fs c b) _ p hp, readFile_mkdirs]
  case keep =>
    intro p hp
    unfold update_integration
    refine isSome_foldl_copy (copyActions fs c b) _ p ?_
    rw [readFile_mkdirs]
    exact hp
  case settings =>
    unfold update_integration
    rw [readFile_foldl_copy_not_mem (copyActions fs c b) _ ".claude/settings.json"
      (settings_json_not_written fs c b h1 h2), readFile_mkdirs]
  case fresh =>
    intro content hc
    unfold update_integration
    rw [copyActions, List.foldl_append]
    have hset : settingsAct c b
        = (templateRoot ++ "/settings.json", ".claude/settings.json.new") := by
      rw [settingsAct, if_pos (by simp [h1, h2])]
    rw [hset]
    show readFile (copyFile (copyFile _ (templateRoot ++ "/settings.json")
      ".claude/settings.json.new") (templateRoot ++ "/README.md")
      ".claude/README.md") ".claude/settings.json.new" = some content
    rw [readFile_copyFile_ne _ _ _ _ (by decide)]
    refine readFile_copyFile_src _ _ _ content ?_
    rw [readFile_foldl_copy_not_mem (preActs fs) _ _ (settings_src_not_in_preActs fs),
      readFile_mkdirs]
    exact hc

/-- Witness for C9 on a sample tree: the custom command and the
customized settings survive the update, and the template settings land in
`.claude/settings.json.new`. -/
theorem c9_update_integration_frame_witness :
    readFile (update_integration sampleTree sampleCustomizations (some "bak"))
        ".claude/commands/ai-pack/custom.md"
      = readFile sampleTree ".claude/commands/ai-pack/custom.md"
  ∧ readFile (update_integration sampleTree sampleCustomizations (some "bak"))
        ".claude/settings.json"
      = readFile sampleTree ".claude/settings.json"
  ∧ readFile (update_integration sampleTree sampleCustomizations (some "bak"))
        ".claude/settings.json.new" = some "S" :=
  ⟨(c9_update_integration_frame sampleTree sampleCustomizations (some "bak")).1
      ".claude/commands/ai-pack/custom.md" (by decide),
   ((c9_update_integration_frame sampleTree sampleCustomizations (some "bak")).2.2
      rfl rfl).1,
   ((c9_update_integration_frame sampleTree sampleCustomizations (some "bak")).2.2
      rfl rfl).2 "S" (by decide)⟩

/-- Claim C10: `create_ai_directory` always returns True, never changes a
pre-existing `.ai/.gitignore` or `.ai/repo-overrides.md`, touches no
other file, tolerates already-existing directories, and ensures `.ai/`
and `.ai/tasks/` exist afterwards. -/
theorem c10_create_ai_directory (fs : FS) :
    (create_ai_directory fs).2 = true
  ∧ (∀ content : String, readFile fs ".ai/.gitignore" = some content →
      readFile (create_ai_directory fs).1 ".ai/.gitignore" = some content)
  ∧ (∀ content : String, readFile fs ".ai/repo-overrides.md" = some content →
      readFile (create_ai_directory fs).1 ".ai/repo-overrides.md" = some content)
  ∧ (∀ p : String, p ≠ ".ai/.gitignore" → p ≠ ".ai/repo-overrides.md" →
      readFile (create_ai_directory fs).1 p = readFile fs p)
  ∧ ".ai" ∈ (create_ai_directory fs).1.dirs
  ∧ ".ai/tasks" ∈ (create_ai_directory fs).1.dirs
  ∧ (∀ d ∈ fs.dirs, d ∈ (create_ai_directory fs).1.dirs)
  ∧ (readFile fs ".ai/.gitignore" = none →
      readFile (create_ai_directory fs).1 ".ai/.gitignore" = some gitignoreText)
  ∧ (readFile fs ".ai/repo-overrides.md" = none →
      readFile (create_ai_directory fs).1 ".ai/repo-overrides.md"
        = some repoOverridesText) := by
  have hm : ∀ q : String,
      readFile (mkdirP (mkdirP fs ".ai") ".ai/tasks") q = readFile fs q := by
    intro q
    unfold readFile
    rw [files_mkdirP, files_mkdirP]
  refine ⟨rfl, ?git, ?ovr, ?frame, ?dai, ?dtasks, ?dmono, ?gitnew, ?ovrnew⟩
  case git =>
    intro content h
    show readFile (writeIfMissing (writeIfMissing _ ".ai/.gitignore" gitignoreText)
      ".ai/repo-overrides.md" repoOverridesText) ".ai/.gitignore" = some content
    rw [readFile_writeIfMissing_ne _ _ _ _ (by decide),
      readFile_writeIfMissing_present _ _ _ content (by rw [hm]; exact h)]
  case ovr =>
    intro content h
    show readFile (writeIfMissing (writeIfMissing _ ".ai/.gitignore" gitignoreText)
      ".ai/repo-overrides.md" repoOverridesText) ".ai/repo-overrides.md" = some content
    refine readFile_writeIfMissing_present _ _ _ content ?_
    rw [readFile_writeIfMissing_ne _ _ _ _ (by decide), hm]
    exact h
  case frame =>
    intro p h1 h2
    show readFile (writeIfMissing (writeIfMissing _ ".ai/.gitignore" gitignoreText)
      ".ai/repo-overrides.md" repoOverridesText) p = readFile fs p
    rw [readFile_writeIfMissing_ne _ _ _ _ h2, readFile_writeIfMissing_ne _ _ _ _ h1,
      hm]
  case dai =>
    show ".ai" ∈ (writeIfMissing (writeIfMissing _ _ _) _ _).dirs
    rw [dirs_writeIfMissing, dirs_writeIfMissing]
    exact dirs_mkdirP_mono _ ".ai/tasks" ".ai" (dirs_mkdirP_self fs ".ai")
  case dtasks =>
    show ".ai/tasks" ∈ (writeIfMissing (writeIfMissing _ _ _) _ _).dirs
    rw [dirs_writeIfMissing, dirs_writeIfMissing]
    exact dirs_mkdirP_self (mkdirP fs ".ai") ".ai/tasks"
  case dmono =>
    intro d hd
    show d ∈ (writeIfMissing (writeIfMissing _ _ _) _ _).dirs
    rw [dirs_writeIfMissing, dirs_writeIfMissing]
    exact dirs_mkdirP_mono _ ".ai/tasks" d (dirs_mkdirP_mono fs ".ai" d hd)
  case gitnew =>
    intro h
    show readFile (writeIfMissing (writeIfMissing _ ".ai/.gitignore" gitignoreText)
      ".ai/repo-overrides.md" repoOverridesText) ".ai/.gitignore" = some gitignoreText
    rw [readFile_writeIfMissing_ne _ _ _ _ (by decide),
      readFile_writeIfMissing_absent _ _ _ (by rw [hm]; exact h)]
  case ovrnew =>
    intro h
    show readFile (writeIfMissing (writeIfMissing _ ".ai/.gitignore" gitignoreText)
      ".ai/repo-overrides.md" repoOverridesText) ".ai/repo-overrides.md"
      = some repoOverridesText
    refine readFile_writeIfMissing_absent _ _ _ ?_
    rw [readFile_writeIfMissing_ne _ _ _ _ (by decide), hm]
    exact h

/-- Witness for C10: a pre-existing `.ai/.gitignore` keeps its contents. -/
theorem c10_create_ai_directory_witness :
    readFile (create_ai_directory sampleAiTree).1 ".ai/.gitignore" = some "OLD"
  ∧ (create_ai_directory sampleAiTree).2 = true :=
  ⟨(c10_create_ai_directory sampleAiTree).2.1 "OLD" rfl,
   (c10_create_ai_directory sampleAiTree).1⟩

end AiPack
